import Mathlib

/-!
Shallow embedding of the workflow-engine core of the `aigateway` repository
(`src/workflow-engine/...`), together with theorems settling the frozen
claims about the state reducers, the SQL query safety gate, the conditional
edge routers, the node adapters, resume, the WebSocket message surface and
the per-node token/cost bookkeeping.

Python values of type `Any` are embedded as `PyVal`; Python `dict`s are
embedded as insertion-ordered association lists; Python `int` is `Int`,
Python `float` is modelled as the exact rational `ℚ`; `None` is `Option.none`.
-/

set_option maxRecDepth 4096

namespace AiGateway

/-- Embedding of Python values of static type `Any`. -/
inductive PyVal where
  | str : String → PyVal
  | int : Int → PyVal
  | num : ℚ → PyVal
  | bool : Bool → PyVal
  | none : PyVal
  | list : List PyVal → PyVal
  | dict : List (String × PyVal) → PyVal
deriving Repr

/-- A Python `dict` with string keys: an insertion-ordered association list. -/
abbrev PyDict (α : Type _) := List (String × α)

/-- First-occurrence lookup in an association list (Python `d[k]` / `d.get(k)`;
for lists built by `dictInsert`, keys are unique so this is dict lookup). -/
def dictLookup : PyDict α → String → Option α
  | [], _ => Option.none
  | (k, v) :: rest, key => if k = key then some v else dictLookup rest key

/-- Python `k in d`. -/
def containsKey (d : PyDict α) (key : String) : Bool :=
  (dictLookup d key).isSome

/-- Replace the value at the first occurrence of `key`. -/
def replaceFirst : PyDict α → String → α → PyDict α
  | [], _, _ => []
  | (k, v) :: rest, key, w =>
      if k = key then (k, w) :: rest else (k, v) :: replaceFirst rest key w

/-- Python `d[k] = v`: overwrite in place when present, append otherwise. -/
def dictInsert (d : PyDict α) (key : String) (v : α) : PyDict α :=
  if containsKey d key then replaceFirst d key v else d ++ [(key, v)]

/-- Insert every entry of `es` (in order) into `d`: the effect of splatting
`**es` into a dict literal that already holds `d`'s entries. -/
def dictExtend (d : PyDict α) (es : PyDict α) : PyDict α :=
  es.foldl (fun acc kv => dictInsert acc kv.1 kv.2) d

/-- The keys of the dict, in order. -/
def dictKeys (d : PyDict α) : List String := d.map Prod.fst

/-- Well-formedness of a dict arising from a real Python `dict`: no duplicate keys. -/
def NodupKeys (d : PyDict α) : Prop := (dictKeys d).Nodup

/-- Python truthiness of an `Optional[str]`: `None` and `""` are falsy. -/
def truthyStrOpt : Option String → Bool
  | Option.none => false
  | some s => !(s = "")

/-! ## `models/state.py`: the per-field reducers -/

/-- Source `merge_messages` from `models/state.py`: the `append` reducer
(`if not left: return right or []; if not right: return left; return left + right`). -/
def merge_messages (left right : List α) : List α :=
  if left.isEmpty then (if right.isEmpty then [] else right)
  else if right.isEmpty then left
  else left ++ right

/-- Source `merge_dicts` from `models/state.py`: the shallow-merge reducer
(`if not left: return right or \x7b\x7d; if not right: return left; return \x7b**left, **right\x7d`). -/
def merge_dicts (left right : PyDict α) : PyDict α :=
  if left.isEmpty then (if right.isEmpty then [] else right)
  else if right.isEmpty then left
  else dictExtend (dictExtend [] left) right

/-- Source `last_value` from `models/state.py`: the last-write-wins reducer
(`return right if right is not None else left`). -/
def last_value (left right : Option α) : Option α :=
  match right with
  | some v => some v
  | Option.none => left

/-! ## Python string primitives

Embeddings of the CPython string operations and of the concrete regular
expressions used by `templates/data_analysis_agent.py`, operating on
`List Char`.  All inputs in scope are ASCII. -/

/-- Python whitespace (`str.strip`, `str.split`, regex `\s`). -/
def isPySpace (c : Char) : Bool :=
  c = ' ' || c = '\t' || c = '\n' || c = '\r' || c = '\x0b' || c = '\x0c'

/-- Regex `\d` (ASCII). -/
def isPyDigit (c : Char) : Bool := decide ('0' ≤ c) && decide (c ≤ '9')

/-- ASCII letter. -/
def isAsciiAlpha (c : Char) : Bool :=
  (decide ('A' ≤ c) && decide (c ≤ 'Z')) || (decide ('a' ≤ c) && decide (c ≤ 'z'))

/-- Regex `\w` / `[a-zA-Z0-9_]` (ASCII). -/
def isWordChar (c : Char) : Bool := isAsciiAlpha c || isPyDigit c || c = '_'

/-- Regex `[a-zA-Z_]`. -/
def isIdentStart (c : Char) : Bool := isAsciiAlpha c || c = '_'

/-- Python `str.upper()` (ASCII). -/
def pyUpper (s : List Char) : List Char := s.map Char.toUpper

/-- Python `str.lower()` (ASCII). -/
def pyLower (s : List Char) : List Char := s.map Char.toLower

/-- Drop leading Python whitespace. -/
def pyStripLeft : List Char → List Char
  | [] => []
  | c :: cs => if isPySpace c then pyStripLeft cs else c :: cs

/-- Python `str.strip()`. -/
def pyStrip (s : List Char) : List Char :=
  pyStripLeft (pyStripLeft s.reverse).reverse

/-- Python `str.rstrip(";")`: drop trailing semicolons only. -/
def rstripSemicolons (s : List Char) : List Char :=
  (s.reverse.dropWhile (fun c => c = ';')).reverse

/-- Helper for `pySplit`: accumulates the current word reversed. -/
def pySplitAux (cur : List Char) : List Char → List (List Char)
  | [] => if cur.isEmpty then [] else [cur.reverse]
  | c :: cs =>
      if isPySpace c then
        if cur.isEmpty then pySplitAux [] cs else cur.reverse :: pySplitAux [] cs
      else pySplitAux (c :: cur) cs

/-- Python `str.split()` with no argument: split on whitespace runs. -/
def pySplit (s : List Char) : List (List Char) := pySplitAux [] s

/-- Does `p` occur literally at the head of `s`? -/
def listStarts : List Char → List Char → Bool
  | [], _ => true
  | _ :: _, [] => false
  | p :: ps, c :: cs => p = c && listStarts ps cs

/-- Consume the literal `p` from the head of `s`, returning the rest. -/
def dropMatch : List Char → List Char → Option (List Char)
  | [], s => some s
  | _ :: _, [] => Option.none
  | p :: ps, c :: cs => if p = c then dropMatch ps cs else Option.none

/-- Python `sub in s` (substring containment). -/
def containsSub (sub : List Char) : List Char → Bool
  | [] => listStarts sub []
  | c :: cs => listStarts sub (c :: cs) || containsSub sub cs

/-- Source `re.search` with a position matcher: does `p` match at some position?
(All patterns in scope need at least one character, so the empty final
position never matches.) -/
def reSearch (p : List Char → Bool) : List Char → Bool
  | [] => false
  | c :: cs => p (c :: cs) || reSearch p cs

/-- Source `\b` before a pattern that starts with a word character: the previous
character (if any) is not a word character. -/
def wordBoundaryOk : Option Char → Bool
  | Option.none => true
  | some c => !(isWordChar c)

/-- Source `re.search(r"\b" + kw + r"\b", s)` for a keyword `kw` whose first and
last characters are word characters (true of every dangerous keyword). -/
def kwSearchAux (kw : List Char) (prev : Option Char) : List Char → Bool
  | [] => false
  | c :: cs =>
      (wordBoundaryOk prev &&
        (match dropMatch kw (c :: cs) with
         | some rest =>
             (match rest with
              | [] => true
              | r :: _ => !(isWordChar r))
         | Option.none => false))
      || kwSearchAux kw (some c) cs

/-- Word-bounded keyword search over the whole string. -/
def kwSearch (kw s : List Char) : Bool := kwSearchAux kw Option.none s

/-- Regex `\s*`: committed greedy skip (sound here because no following
token in any pattern in scope can match a whitespace character). -/
def skipWs (s : List Char) : List Char := s.dropWhile isPySpace

/-- Regex `\s+`: at least one whitespace character, then greedy skip. -/
def skipWs1 : List Char → Option (List Char)
  | c :: cs => if isPySpace c then some (skipWs cs) else Option.none
  | [] => Option.none

/-- Regex `\d+`: at least one digit, then greedy skip. -/
def skipDigits1 : List Char → Option (List Char)
  | c :: cs => if isPyDigit c then some (List.dropWhile isPyDigit cs) else Option.none
  | [] => Option.none

/-- Numeric value of a digit run (Python `int(...)`). -/
def digitsToNat (ds : List Char) : Nat :=
  ds.foldl (fun n c => n * 10 + (c.toNat - '0'.toNat)) 0

/-! ### The injection patterns of `validate_sql_query` -/

/-- Source `;\s*(SELECT|DROP|DELETE|INSERT|UPDATE)` at a position. -/
def multiStatementAt : List Char → Bool
  | ';' :: rest =>
      let r := skipWs rest
      listStarts "SELECT".toList r || listStarts "DROP".toList r ||
      listStarts "DELETE".toList r || listStarts "INSERT".toList r ||
      listStarts "UPDATE".toList r
  | _ => false

/-- After an opening `/*`: is there a closing `*/` with no newline before it
(`.` does not match a newline)? -/
def blockCloseSearch : List Char → Bool
  | '*' :: '/' :: _ => true
  | c :: cs => if c = '\n' then false else blockCloseSearch cs
  | [] => false

/-- Source `/\*.*\*/` at a position. -/
def blockCommentAt : List Char → Bool
  | '/' :: '*' :: rest => blockCloseSearch rest
  | _ => false

/-- Source `'\s*OR\s+'\d+'\s*=\s*'\d+` at a position. -/
def orInjectionAt : List Char → Bool
  | '\'' :: rest =>
      (do
        let r1 ← dropMatch "OR".toList (skipWs rest)
        let r2 ← skipWs1 r1
        let r3 ← (match r2 with | '\'' :: t => some t | _ => Option.none)
        let r4 ← skipDigits1 r3
        let r5 ← (match r4 with | '\'' :: t => some t | _ => Option.none)
        let r6 ← (match skipWs r5 with | '=' :: t => some t | _ => Option.none)
        let r7 ← (match skipWs r6 with | '\'' :: t => some t | _ => Option.none)
        let _ ← skipDigits1 r7
        pure true).getD false
  | _ => false

/-- Source `UNION\s+ALL\s+SELECT` at a position. -/
def unionInjectionAt (s : List Char) : Bool :=
  (do
    let r1 ← dropMatch "UNION".toList s
    let r2 ← skipWs1 r1
    let r3 ← dropMatch "ALL".toList r2
    let r4 ← skipWs1 r3
    pure (listStarts "SELECT".toList r4)).getD false

/-- Source `INTO\s+OUTFILE` at a position. -/
def intoOutfileAt (s : List Char) : Bool :=
  (do
    let r1 ← dropMatch "INTO".toList s
    let r2 ← skipWs1 r1
    pure (listStarts "OUTFILE".toList r2)).getD false

/-- Source `LOAD_FILE\s*\(` at a position. -/
def loadFileAt (s : List Char) : Bool :=
  match dropMatch "LOAD_FILE".toList s with
  | some r =>
      (match skipWs r with
       | '(' :: _ => true
       | _ => false)
  | Option.none => false

/-- Step 3 of `validate_sql_query`: any of the seven injection patterns
matches somewhere in the uppercased query. -/
def hasInjectionPattern (sqlUpper : List Char) : Bool :=
  reSearch multiStatementAt sqlUpper ||
  containsSub "--".toList sqlUpper ||
  reSearch blockCommentAt sqlUpper ||
  reSearch orInjectionAt sqlUpper ||
  reSearch unionInjectionAt sqlUpper ||
  reSearch intoOutfileAt sqlUpper ||
  reSearch loadFileAt sqlUpper

/-! ### Table extraction and LIMIT extraction -/

/-- Source `kw + r"\s+([a-zA-Z_][a-zA-Z0-9_]*)"` at a position: the captured
identifier and the rest of the string after the whole match. -/
def tableRefAt (kw : List Char) (s : List Char) : Option (List Char × List Char) := do
  let r1 ← dropMatch kw s
  let r2 ← skipWs1 r1
  match r2 with
  | c :: cs =>
      if isIdentStart c then
        pure (c :: cs.takeWhile isWordChar, cs.dropWhile isWordChar)
      else Option.none
  | [] => Option.none

/-- Source `re.finditer` for the table pattern: leftmost, non-overlapping matches.
The fuel argument (initialised to the string length) only bounds recursion;
every step consumes at least one character. -/
def finditerTables (kw : List Char) : Nat → List Char → List (List Char)
  | 0, _ => []
  | _, [] => []
  | fuel + 1, c :: cs =>
      match tableRefAt kw (c :: cs) with
      | some (tbl, rest) => tbl :: finditerTables kw fuel rest
      | Option.none => finditerTables kw fuel cs

/-- All identifiers captured after `kw` (`FROM` or `JOIN`) in the query. -/
def findTables (kw s : List Char) : List (List Char) := finditerTables kw s.length s

/-- Source `re.search(r"LIMIT\s+(\d+)", s)` at a position: the captured number. -/
def limitAt (s : List Char) : Option Nat := do
  let r1 ← dropMatch "LIMIT".toList s
  let r2 ← skipWs1 r1
  match r2 with
  | c :: cs =>
      if isPyDigit c then pure (digitsToNat (c :: cs.takeWhile isPyDigit))
      else Option.none
  | [] => Option.none

/-- First `LIMIT <n>` match in the query. -/
def findLimit : List Char → Option Nat
  | [] => Option.none
  | c :: cs =>
      match limitAt (c :: cs) with
      | some n => some n
      | Option.none => findLimit cs

/-! ## `templates/data_analysis_agent.py`: the SQL safety gate -/

/-- Source `DANGEROUS_SQL_KEYWORDS` (a Python set literal, embedded in source
order; the iteration order only affects which keyword is named in the error
message, never whether the query is rejected). -/
def DANGEROUS_SQL_KEYWORDS : List String :=
  ["DROP", "DELETE", "INSERT", "UPDATE", "TRUNCATE", "ALTER", "CREATE",
   "GRANT", "REVOKE", "EXEC", "EXECUTE", "CALL", "INTO OUTFILE",
   "LOAD_FILE", "COPY", "pg_read_file", "pg_write_file"]

/-- Source `ALLOWED_TABLES` (a Python set literal, embedded in source order). -/
def ALLOWED_TABLES : List String :=
  ["cost_tracking_daily", "budget_alerts", "routing_decisions",
   "workflow_executions", "workflow_steps"]

/-- Source `MAX_QUERY_LIMIT`. -/
def MAX_QUERY_LIMIT : Nat := 1000

/-- One fixed textual rendering of the `ALLOWED_TABLES` set for error
messages (CPython renders the set in hash order, which is unspecified). -/
def ALLOWED_TABLES_REPR : String :=
  "\x7b\x27cost_tracking_daily\x27, \x27budget_alerts\x27, " ++
  "\x27routing_decisions\x27, \x27workflow_executions\x27, \x27workflow_steps\x27\x7d"

/-- The first dangerous keyword found word-bounded in the uppercased query. -/
def findFirstDangerous (sqlUpper : List Char) : Option String :=
  DANGEROUS_SQL_KEYWORDS.find? (fun kw => kwSearch kw.toList sqlUpper)

/-- The first table reference not in the allow-list. -/
def findDisallowedTable (tables : List String) : Option String :=
  tables.find? (fun t => !(ALLOWED_TABLES.contains t))

/-- Source `validate_sql_query` from `templates/data_analysis_agent.py`:
returns `(is_valid, error_message)`. -/
def validate_sql_query (sql : String) : Bool × String :=
  let chars := sql.toList
  if (pyStrip chars).isEmpty then (false, "Empty SQL query")
  else
    let sqlUpper := pyStrip (pyUpper chars)
    let sqlNormalized := List.intercalate [' '] (pySplit sqlUpper)
    if !(listStarts "SELECT".toList sqlNormalized) then
      (false, "Only SELECT queries are allowed for data analysis")
    else
      match findFirstDangerous sqlUpper with
      | some kw => (false, "Dangerous SQL keyword detected: " ++ kw)
      | Option.none =>
        if hasInjectionPattern sqlUpper then
          (false, "Potential SQL injection pattern detected")
        else
          let tablesUsed :=
            (findTables "FROM".toList sqlUpper ++ findTables "JOIN".toList sqlUpper).map
              (fun t => String.mk (pyLower t))
          match findDisallowedTable tablesUsed with
          | some tbl =>
              (false, "Table \x27" ++ tbl ++ "\x27 is not in the allowed list: " ++
                ALLOWED_TABLES_REPR)
          | Option.none =>
            match findLimit sqlUpper with
            | Option.none =>
                (false, "Query must include a LIMIT clause (max 1000)")
            | some lim =>
                if lim > MAX_QUERY_LIMIT then
                  (false, "LIMIT " ++ toString lim ++ " exceeds maximum allowed (1000)")
                else (true, "")

/-- Source `sanitize_sql_query` from `templates/data_analysis_agent.py`. -/
def sanitize_sql_query (sql : String) : String :=
  let s := pyStrip sql.toList
  let s := rstripSemicolons s
  if containsSub "LIMIT".toList (pyUpper s) then String.mk s
  else String.mk (s ++ (" LIMIT 1000").toList)

/-! ## `models/state.py`: `NodeState` and `WorkflowState` -/

/-- A `Dict[str, Any]` (a message, a result row, ...). -/
abbrev Msg := PyDict PyVal

/-- Source `NodeState` from `models/state.py`.  Timestamps are abstract ticks. -/
structure NodeState where
  node_name : String
  status : String
  input : Option Msg
  output : Option Msg
  error : Option String
  started_at : Option Nat
  completed_at : Option Nat
  tokens_used : Int
  cost : ℚ
deriving Repr

/-- Source `NodeState(node_name=..., started_at=now)` with the pydantic defaults. -/
def NodeState.fresh (node_name : String) (now : Nat) : NodeState where
  node_name := node_name
  status := "pending"
  input := Option.none
  output := Option.none
  error := Option.none
  started_at := some now
  completed_at := Option.none
  tokens_used := 0
  cost := 0

/-- Source `WorkflowState` from `models/state.py`. -/
structure WorkflowState where
  messages : List Msg
  current_node : Option String
  execution_id : Option String
  input : Msg
  output : Option Msg
  intermediate_results : Msg
  search_results : List Msg
  analysis : Option String
  code_context : Option String
  generated_code : Option String
  code_analysis : Option String
  iteration_count : Int
  data_query : Option String
  query_results : Option (List Msg)
  visualization : Option Msg
  node_states : PyDict NodeState
  total_tokens : Int
  total_cost : ℚ
  should_continue : Bool
  error : Option String

/-- A freshly constructed `WorkflowState(input=..., messages=...)`: every
other field takes its pydantic default. -/
def WorkflowState.init (input : Msg) (messages : List Msg) : WorkflowState where
  messages := messages
  current_node := Option.none
  execution_id := Option.none
  input := input
  output := Option.none
  intermediate_results := []
  search_results := []
  analysis := Option.none
  code_context := Option.none
  generated_code := Option.none
  code_analysis := Option.none
  iteration_count := 0
  data_query := Option.none
  query_results := Option.none
  visualization := Option.none
  node_states := []
  total_tokens := 0
  total_cost := 0
  should_continue := true
  error := Option.none

/-- The arguments of one `update_node_state` call (Python keyword arguments
with their defaults made explicit; `now` is the `datetime.utcnow()` tick). -/
structure UpdateArgs where
  node_name : String
  status : String
  tokens : Int
  cost : ℚ
  output : Option Msg
  error : Option String
  now : Nat

/-- Apply the body of `update_node_state` to the per-node record:
set status, accumulate tokens/cost, conditionally set output/error
(Python truthiness: an empty dict / empty string is not stored), and stamp
`completed_at` on a terminal status. -/
def applyNodeUpdate (n : NodeState) (a : UpdateArgs) : NodeState :=
  let n1 := { n with
    status := a.status
    tokens_used := n.tokens_used + a.tokens
    cost := n.cost + a.cost }
  let n2 :=
    match a.output with
    | some o => if o.isEmpty then n1 else { n1 with output := some o }
    | Option.none => n1
  let n3 :=
    match a.error with
    | some e => if e = "" then n2 else { n2 with error := some e }
    | Option.none => n2
  if a.status = "completed" || a.status = "failed" then
    { n3 with completed_at := some a.now }
  else n3

/-- Update the value stored at the first occurrence of `key`. -/
def updateValue (d : PyDict α) (key : String) (f : α → α) : PyDict α :=
  match d with
  | [] => []
  | (k, v) :: rest =>
      if k = key then (k, f v) :: rest else (k, v) :: updateValue rest key f

/-- Source `WorkflowState.update_node_state` from `models/state.py`: ensure the
per-node record exists, mutate it, and add the call's tokens and cost to
the state totals.  The cost additions are idealized to exact rational
arithmetic here; `WorkflowState.update_node_stateF` below performs them in
IEEE binary64 as the interpreter does, and the two disagree on interleaved
call sequences. -/
def WorkflowState.update_node_state (st : WorkflowState) (a : UpdateArgs) : WorkflowState :=
  let ns0 :=
    if containsKey st.node_states a.node_name then st.node_states
    else st.node_states ++ [(a.node_name, NodeState.fresh a.node_name a.now)]
  { st with
    node_states := updateValue ns0 a.node_name (fun n => applyNodeUpdate n a)
    total_tokens := st.total_tokens + a.tokens
    total_cost := st.total_cost + a.cost }

/-- A sequence of `update_node_state` calls, applied in order. -/
def applyUpdates (st : WorkflowState) (calls : List UpdateArgs) : WorkflowState :=
  calls.foldl WorkflowState.update_node_state st

/-- Sum of `tokens_used` over all entries of a `node_states` dict. -/
def sumTokens (d : PyDict NodeState) : Int :=
  (d.map (fun p => p.2.tokens_used)).sum

/-- Sum of `cost` over all entries of a `node_states` dict. -/
def sumCost (d : PyDict NodeState) : ℚ :=
  (d.map (fun p => p.2.cost)).sum

/-! ## `graphs/edges.py`: conditional edge functions -/

/-- Source `should_continue` from `graphs/edges.py` (`if state.error: return "end"`
uses Python truthiness, so an empty-string error does not trigger it). -/
def should_continue (state : WorkflowState) : String :=
  if truthyStrOpt state.error then "end"
  else if !state.should_continue then "end"
  else "continue"

/-- Source `check_iteration_limit` from `graphs/edges.py` (`max_iterations`
defaults to 5 at the Python call surface; it is passed explicitly here). -/
def check_iteration_limit (state : WorkflowState) (max_iterations : Int) : String :=
  if state.iteration_count ≥ max_iterations then "end" else "continue"

/-- Source `any(word in analysis_lower for word in words)`. -/
def analysisHasIssueWord (analysis_lower : List Char) (words : List String) : Bool :=
  words.any (fun w => containsSub w.toList analysis_lower)

/-- Source `coding_router` from `graphs/edges.py`. -/
def coding_router (state : WorkflowState) : String :=
  if state.iteration_count ≥ 5 then "finalize"
  else if truthyStrOpt state.code_analysis &&
      analysisHasIssueWord (pyLower ((state.code_analysis).getD "").toList)
        ["error", "bug", "issue", "fix", "improve"] then "analyze"
  else "finalize"

/-! ## `templates/coding_agent.py` -/

/-- Source `CodingAgentWorkflow.MAX_ITERATIONS`. -/
def MAX_ITERATIONS : Int := 5

/-- Source `CodingAgentWorkflow._should_iterate`. -/
def _should_iterate (state : WorkflowState) : String :=
  if state.iteration_count ≥ MAX_ITERATIONS then "finalize"
  else if truthyStrOpt state.code_analysis &&
      analysisHasIssueWord (pyLower ((state.code_analysis).getD "").toList)
        ["error", "bug", "issue", "fix", "improve", "missing", "incorrect"] then "iterate"
  else "finalize"

/-- The outcome of the awaited LLM HTTP call made inside a node's `try`
block: either a parsed success (content plus usage counters, defaulting to
0 when absent) or a raised exception. -/
inductive LLMOutcome where
  | ok (content : String) (prompt_tokens completion_tokens : Int)
  | exc (msg : String)

/-- A node's returned update dict (`Dict[str, Any]`). -/
abbrev NodeUpdate := PyDict PyVal

/-- Source `CodingAgentWorkflow._generate_code`, with the external LLM call
abstracted into `outcome`: returns the (possibly mutated) state object and
the update dict the node hands back to the graph. -/
def _generate_code (state : WorkflowState) (now : Nat) :
    LLMOutcome → WorkflowState × NodeUpdate
  | LLMOutcome.ok content pt ct =>
      let tokens := pt + ct
      let cost : ℚ := ((pt : ℚ) * 0.0025 + (ct : ℚ) * 0.01) / 1000
      let st := state.update_node_state
        { node_name := "generate_code", status := "completed", tokens := tokens,
          cost := cost, output := Option.none, error := Option.none, now := now }
      (st,
       [("generated_code", PyVal.str content),
        ("messages", PyVal.list
          [PyVal.dict [("role", PyVal.str "assistant"), ("content", PyVal.str content)]]),
        ("current_node", PyVal.str "generate_code"),
        ("iteration_count", PyVal.int (state.iteration_count + 1))])
  | LLMOutcome.exc msg =>
      (state, [("error", PyVal.str msg), ("should_continue", PyVal.bool false)])

/-! ## `graphs/nodes.py`: the reusable node adapters -/

/-- The awaited HTTP response of `llm_client.post` inside `llm_node`:
status code, raw text, and the parsed content/usage on success. -/
inductive HttpOutcome where
  | resp (status : Int) (text : String) (content : String)
      (prompt_tokens completion_tokens : Int)
  | exc (msg : String)

/-- Source `llm_node` from `graphs/nodes.py`, with the external call abstracted
into `outcome`: a non-200 status raises, every raise is caught and turned
into `\x7b"error": ..., "should_continue": False\x7d`. -/
def llm_node (state : WorkflowState) (outcome : HttpOutcome)
    (node_name : String) (now : Nat) : WorkflowState × NodeUpdate :=
  match outcome with
  | HttpOutcome.resp status text content pt ct =>
      if status ≠ 200 then
        let msg := "LLM call failed: " ++ text
        let st := state.update_node_state
          { node_name := node_name, status := "failed", tokens := 0, cost := 0,
            output := Option.none, error := some msg, now := now }
        (st, [("error", PyVal.str msg), ("should_continue", PyVal.bool false)])
      else
        let cost : ℚ := ((pt : ℚ) * 0.00015 + (ct : ℚ) * 0.0006) / 1000
        let st := state.update_node_state
          { node_name := node_name, status := "completed", tokens := pt + ct,
            cost := cost, output := some [("content", PyVal.str content)],
            error := Option.none, now := now }
        (st,
         [("messages", PyVal.list
            [PyVal.dict [("role", PyVal.str "assistant"), ("content", PyVal.str content)]]),
          ("current_node", PyVal.str node_name)])
  | HttpOutcome.exc msg =>
      let st := state.update_node_state
        { node_name := node_name, status := "failed", tokens := 0, cost := 0,
          output := Option.none, error := some msg, now := now }
      (st, [("error", PyVal.str msg), ("should_continue", PyVal.bool false)])

/-- Abstract rendering of Python `str(...)` on an embedded value
(the exact text of nested containers is not load-bearing for any claim). -/
def pyStr : PyVal → String
  | PyVal.str s => s
  | PyVal.int i => toString i
  | PyVal.num q => toString q
  | PyVal.bool b => if b then "True" else "False"
  | PyVal.none => "None"
  | PyVal.list _ => "[...]"
  | PyVal.dict _ => "\x7b...\x7d"

/-- The awaited HTTP response of `mcp_client.post` inside `tool_node`. -/
inductive ToolOutcome where
  | resp (status : Int) (text : String) (result : PyVal)
  | exc (msg : String)

/-- Source `tool_node` from `graphs/nodes.py`, with the external call abstracted
into `outcome`. -/
def tool_node (state : WorkflowState) (outcome : ToolOutcome)
    (tool_name : String) (node_name : String) (now : Nat) :
    WorkflowState × NodeUpdate :=
  match outcome with
  | ToolOutcome.resp status text result =>
      if status ≠ 200 then
        let msg := "Tool call failed: " ++ text
        let st := state.update_node_state
          { node_name := node_name, status := "failed", tokens := 0, cost := 0,
            output := Option.none, error := some msg, now := now }
        (st, [("error", PyVal.str msg), ("should_continue", PyVal.bool false)])
      else
        let st := state.update_node_state
          { node_name := node_name, status := "completed", tokens := 0, cost := 0,
            output := some [("tool_result", result)], error := Option.none, now := now }
        (st,
         [("messages", PyVal.list
            [PyVal.dict [("role", PyVal.str "tool"), ("content", PyVal.str (pyStr result)),
                         ("name", PyVal.str tool_name)]]),
          ("intermediate_results", PyVal.dict [(tool_name, result)]),
          ("current_node", PyVal.str node_name)])
  | ToolOutcome.exc msg =>
      let st := state.update_node_state
        { node_name := node_name, status := "failed", tokens := 0, cost := 0,
          output := Option.none, error := some msg, now := now }
      (st, [("error", PyVal.str msg), ("should_continue", PyVal.bool false)])

/-- Source `router_node` from `graphs/nodes.py`.  The conditions dict is embedded
as a list in Python dict iteration (= insertion) order; a condition is a
function that either returns a truth value or raises (`Except.error`), and
a raise is caught and treated as a non-match. -/
def router_node (state : WorkflowState)
    (conditions : List (String × (WorkflowState → Except String Bool)))
    (default : String) : String :=
  match conditions with
  | [] => default
  | (target, cond) :: rest =>
      match cond state with
      | Except.ok true => target
      | _ => router_node state rest default

/-! ## `templates/data_analysis_agent.py`: the `query_data` node -/

/-- The awaited response of `mcp_client.post("/mcp/tools/call", ...)`:
status plus the optional `results` field of the JSON body, or a raise. -/
inductive MCPOutcome where
  | resp (status : Int) (results : Option (List PyVal))
  | exc (msg : String)

/-- The hard-coded fallback rows used when the tool responds non-200. -/
def demo_rows : List PyVal :=
  [PyVal.dict [("date", PyVal.str "2024-01-01"), ("total_cost", PyVal.num 10.5),
               ("request_count", PyVal.int 100)],
   PyVal.dict [("date", PyVal.str "2024-01-02"), ("total_cost", PyVal.num 15.3),
               ("request_count", PyVal.int 150)]]

/-- Source `DataAnalysisWorkflow._query_data`, with the external Tool Client
abstracted into `mcp`.  The third component records every query actually
sent to the Tool Client, so "the client is never invoked" is `= []`. -/
def _query_data (state : WorkflowState) (mcp : String → MCPOutcome) (now : Nat) :
    WorkflowState × NodeUpdate × List String :=
  let sql_query := (state.data_query).getD ""
  if sql_query = "" then
    (state, [("error", PyVal.str "No SQL query generated"),
             ("should_continue", PyVal.bool false)], [])
  else
    let v := validate_sql_query sql_query
    if !v.1 then
      (state,
       [("error", PyVal.str ("SQL validation failed: " ++ v.2)),
        ("should_continue", PyVal.bool false),
        ("query_results", PyVal.list [])], [])
    else
      let sql2 := sanitize_sql_query sql_query
      match mcp sql2 with
      | MCPOutcome.resp status results =>
          let rs := if status = 200 then results.getD [] else demo_rows
          let st := state.update_node_state
            { node_name := "query_data", status := "completed", tokens := 0, cost := 0,
              output := Option.none, error := Option.none, now := now }
          (st,
           [("query_results", PyVal.list rs),
            ("intermediate_results", PyVal.dict [("row_count", PyVal.int rs.length)]),
            ("current_node", PyVal.str "query_data")], [sql2])
      | MCPOutcome.exc _ =>
          (state, [("query_results", PyVal.list []),
                   ("current_node", PyVal.str "query_data")], [sql2])

/-! ## `graphs/base.py`: `BaseWorkflow.resume` -/

/-- The `StateSnapshot` returned by `graph.aget_state`: the head
checkpoint's channel values (an empty dict when the thread has no
checkpoint, which is what the checkpointing library returns then). -/
structure StateSnapshot where
  values : PyDict PyVal

/-- Source `BaseWorkflow.resume` from `graphs/base.py`, with the two graph-library
collaborator calls abstracted: `aget_state` loads the head checkpoint's
snapshot (`Option.none` embeds a `None` return) and `ainvoke_from_checkpoint`
is `graph.ainvoke(None, config)`, which continues execution from the head
checkpoint of the thread. -/
def BaseWorkflow.resume (thread_id : String)
    (aget_state : String → Option StateSnapshot)
    (ainvoke_from_checkpoint : String → WorkflowState) :
    Except String WorkflowState :=
  match aget_state thread_id with
  | Option.none => Except.error ("No checkpoint found for thread " ++ thread_id)
  | some st =>
      if st.values.isEmpty then
        Except.error ("No checkpoint found for thread " ++ thread_id)
      else Except.ok (ainvoke_from_checkpoint thread_id)

/-! ## `api/websocket.py`: the per-execution message surface -/

/-- A server-to-client WebSocket frame: a JSON object (`send_json`) or a
plain text frame (`send_text`). -/
inductive WsMessage where
  | json (fields : PyDict PyVal)
  | text (s : String)
deriving Repr

/-- The message types the specification allows on the socket. -/
def wsAllowedTypes : List String :=
  ["connected", "status", "node_start", "node_complete", "output", "error", "keepalive"]

/-- The reply `websocket_endpoint` sends for one received client text frame:
`"ping"` is answered with the text frame `"pong"`, anything else is echoed
back as a JSON object of type `"echo"`. -/
def handle_client_message (data : String) : WsMessage :=
  if data = "ping" then WsMessage.text "pong"
  else WsMessage.json [("type", PyVal.str "echo"), ("data", PyVal.str data)]

/-- The connection acknowledgment sent on connect. -/
def connected_message (execution_id : String) : WsMessage :=
  WsMessage.json
    [("type", PyVal.str "connected"), ("execution_id", PyVal.str execution_id),
     ("message", PyVal.str "Connected to execution stream")]

/-- The keepalive frame sent after a 30 s receive timeout. -/
def keepalive_message : WsMessage :=
  WsMessage.json [("type", PyVal.str "keepalive")]

/-- Source `send_execution_update` from `api/websocket.py`: broadcasts the dict
literal with `"type"`, `"execution_id"`, then the splatted `data`. -/
def send_execution_update (execution_id update_type : String)
    (data : PyDict PyVal) : WsMessage :=
  WsMessage.json
    (dictExtend
      (dictExtend [] [("type", PyVal.str update_type),
                      ("execution_id", PyVal.str execution_id)])
      data)

/-- The `"type"` field of a frame, when it is a JSON object. -/
def wsMessageType : WsMessage → Option PyVal
  | WsMessage.json fields => dictLookup fields "type"
  | WsMessage.text _ => Option.none

/-- The `update_type` argument at every `send_execution_update` call site
in `main.py`. -/
def send_update_call_types : List String := ["status", "error"]

/-! ## IEEE binary64 cost arithmetic

Python `float` is an IEEE 754 binary64 double, and `x += y` on floats is
the correctly rounded (round to nearest, ties to even) exact sum.  The
model below represents a double by its exact rational value and embeds the
rounding step, for magnitudes below the binary64 overflow threshold (the
only range the program's cost counters can reach). -/

/-- Fuel-bounded binary logarithm on `Nat` (the fuel only bounds the
recursion; the argument halves at every step, so fuel `n` suffices for
input `n`). -/
def log2Fuel : Nat → Nat → Nat
  | 0, _ => 0
  | fuel + 1, n => if n ≥ 2 then log2Fuel fuel (n / 2) + 1 else 0

/-- Binary logarithm: the `e` with `2 ^ e ≤ n < 2 ^ (e + 1)` for `n ≥ 1`. -/
def natLog2 (n : Nat) : Nat := log2Fuel n n

/-- Decide `2 ^ e ≤ a / b` for positive naturals `a`, `b` by
cross-multiplication, keeping all arithmetic in `Nat`. -/
def pow2LE : ℤ → Nat → Nat → Bool
  | Int.ofNat n, a, b => 2 ^ n * b ≤ a
  | Int.negSucc n, a, b => b ≤ 2 ^ (n + 1) * a

/-- The integer `e` with `2 ^ e ≤ a / b < 2 ^ (e + 1)` for the positive
fraction `a / b`: estimated from the bit lengths of numerator and
denominator and corrected by at most one. -/
def ratLog2 (a b : Nat) : ℤ :=
  let d : ℤ := (natLog2 a : ℤ) - (natLog2 b : ℤ)
  if pow2LE (d + 1) a b then d + 1
  else if pow2LE d a b then d
  else d - 1

/-- Round the nonnegative fraction `n / d` (with `d > 0`) to a natural
number, to nearest with ties to even. -/
def rneNat (n d : Nat) : Nat :=
  let k := n / d
  let r := n % d
  if 2 * r < d then k
  else if 2 * r > d then k + 1
  else if k % 2 = 0 then k else k + 1

/-- Round the positive fraction `a / b` to the nearest binary64 value:
scale to a 53-bit significand (clamped to the subnormal scale
`2 ^ (-1074)` below the normal range), round the significand to
nearest-even, and scale back.  Returns the result as a numerator /
denominator pair of naturals. -/
def roundB64frac (a b : Nat) : Nat × Nat :=
  let e := ratLog2 a b
  let scale : ℤ := max (e - 52) (-1074)
  match scale with
  | Int.ofNat s => (rneNat a (b * 2 ^ s) * 2 ^ s, 1)
  | Int.negSucc s => (rneNat (a * 2 ^ (s + 1)) b, 2 ^ (s + 1))

/-- Round a rational to the nearest binary64 double (round to nearest,
ties to even), returned as the exact rational value of that double;
negative inputs round by sign symmetry, as IEEE rounding does.  Overflow
to infinity is not modelled: no cost in scope approaches `2 ^ 1024`. -/
def roundB64 (q : ℚ) : ℚ :=
  match q.num with
  | Int.ofNat 0 => 0
  | Int.ofNat (Nat.succ n) =>
      let nd := roundB64frac (Nat.succ n) q.den
      mkRat (Int.ofNat nd.1) nd.2
  | Int.negSucc n =>
      let nd := roundB64frac (Nat.succ n) q.den
      mkRat (Int.negOfNat nd.1) nd.2

/-- IEEE binary64 addition of two doubles given by their exact rational
values: the correctly rounded exact sum (Python `x + y` on floats).  The
exact sum is formed on the numerator / denominator pairs. -/
def fadd64 (x y : ℚ) : ℚ :=
  roundB64 (mkRat (x.num * (y.den : ℤ) + y.num * (x.den : ℤ)) (x.den * y.den))

/-- Variant of `applyNodeUpdate` whose cost accumulation
(`node_state.cost += cost`) is performed in IEEE binary64 arithmetic,
as the Python interpreter performs it; all other fields are as in
`applyNodeUpdate`. -/
def applyNodeUpdateF (n : NodeState) (a : UpdateArgs) : NodeState :=
  let n1 := { n with
    status := a.status
    tokens_used := n.tokens_used + a.tokens
    cost := fadd64 n.cost a.cost }
  let n2 :=
    match a.output with
    | some o => if o.isEmpty then n1 else { n1 with output := some o }
    | Option.none => n1
  let n3 :=
    match a.error with
    | some e => if e = "" then n2 else { n2 with error := some e }
    | Option.none => n2
  if a.status = "completed" || a.status = "failed" then
    { n3 with completed_at := some a.now }
  else n3

/-- Variant of `WorkflowState.update_node_state` whose two cost additions
(`node_state.cost += cost` and `self.total_cost += cost`) are performed in
IEEE binary64 arithmetic, as the Python interpreter performs them. -/
def WorkflowState.update_node_stateF (st : WorkflowState) (a : UpdateArgs) : WorkflowState :=
  let ns0 :=
    if containsKey st.node_states a.node_name then st.node_states
    else st.node_states ++ [(a.node_name, NodeState.fresh a.node_name a.now)]
  { st with
    node_states := updateValue ns0 a.node_name (fun n => applyNodeUpdateF n a)
    total_tokens := st.total_tokens + a.tokens
    total_cost := fadd64 st.total_cost a.cost }

/-- A sequence of `update_node_state` calls applied in order, under IEEE
binary64 cost arithmetic. -/
def applyUpdatesF (st : WorkflowState) (calls : List UpdateArgs) : WorkflowState :=
  calls.foldl WorkflowState.update_node_stateF st

/-- Three `update_node_state` calls whose costs are the doubles `1.0` (to
node `"a"`), `1.0` (to node `"b"`) and `1e16` (to node `"a"` again): an
interleaving across two nodes that makes the running total and the
per-node sums associate the same additions differently. -/
def interleavedCostCalls : List UpdateArgs :=
  [{ node_name := "a", status := "completed", tokens := 0, cost := 1,
     output := Option.none, error := Option.none, now := 0 },
   { node_name := "b", status := "completed", tokens := 0, cost := 1,
     output := Option.none, error := Option.none, now := 0 },
   { node_name := "a", status := "completed", tokens := 0,
     cost := 10000000000000000,
     output := Option.none, error := Option.none, now := 0 }]

/-! ### Dict helper lemmas -/

theorem replaceFirst_of_not_contains (d : PyDict α) (key : String) (w : α)
    (h : containsKey d key = false) : replaceFirst d key w = d := by
  induction d with
  | nil => rfl
  | cons hd tl ih =>
    obtain ⟨k', v⟩ := hd
    by_cases hk : k' = key
    · simp [containsKey, dictLookup, hk] at h
    · simp only [containsKey, dictLookup, if_neg hk] at h
      simp [replaceFirst, hk, ih h]

theorem dictLookup_replaceFirst (d : PyDict α) (key : String) (w : α) (k : String)
    (h : containsKey d key = true) :
    dictLookup (replaceFirst d key w) k =
      if k = key then some w else dictLookup d k := by
  induction d with
  | nil => simp [containsKey, dictLookup] at h
  | cons hd tl ih =>
    obtain ⟨k', v⟩ := hd
    by_cases hk : k' = key
    · subst hk
      by_cases hkk : k = k'
      · subst hkk
        simp [replaceFirst, dictLookup]
      · have hkk' : ¬ k' = k := fun hx => hkk hx.symm
        simp [replaceFirst, dictLookup, hkk, hkk']
    · simp only [containsKey, dictLookup, if_neg hk] at h
      by_cases hkk : k' = k
      · subst hkk
        simp [replaceFirst, dictLookup, hk]
      · simp only [replaceFirst, if_neg hk, dictLookup, if_neg hkk]
        exact ih h

theorem dictLookup_append (d₁ d₂ : PyDict α) (k : String) :
    dictLookup (d₁ ++ d₂) k =
      match dictLookup d₁ k with
      | some v => some v
      | Option.none => dictLookup d₂ k := by
  induction d₁ with
  | nil => simp [dictLookup]
  | cons hd tl ih =>
    obtain ⟨k', v⟩ := hd
    by_cases h : k' = k <;> simp [dictLookup, h, ih]

theorem dictLookup_insert (d : PyDict α) (key : String) (v : α) (k : String) :
    dictLookup (dictInsert d key v) k =
      if k = key then some v else dictLookup d k := by
  unfold dictInsert
  by_cases h : containsKey d key
  · rw [if_pos h, dictLookup_replaceFirst d key v k h]
  · rw [if_neg h, dictLookup_append]
    by_cases hk : k = key
    · subst hk
      have hnone : dictLookup d k = Option.none := by
        cases hd : dictLookup d k with
        | none => rfl
        | some w => exact absurd (by simp [containsKey, hd]) h
      simp [hnone, dictLookup]
    · cases hd : dictLookup d k with
      | none =>
        have hk' : ¬ key = k := fun hx => hk hx.symm
        simp [hd, dictLookup, hk', hk]
      | some w => simp [hd, hk]

theorem dictLookup_eq_none_of_not_mem (d : PyDict α) (k : String)
    (h : k ∉ dictKeys d) : dictLookup d k = Option.none := by
  induction d with
  | nil => rfl
  | cons hd tl ih =>
    obtain ⟨k', v⟩ := hd
    simp only [dictKeys, List.map_cons, List.mem_cons] at h
    push_neg at h
    simp only [dictLookup, if_neg (fun hx : k' = k => h.1 hx.symm)]
    exact ih (by simpa [dictKeys] using h.2)

theorem dictLookup_extend (es : PyDict α) (d : PyDict α) (k : String)
    (h : NodupKeys es) :
    dictLookup (dictExtend d es) k =
      match dictLookup es k with
      | some v => some v
      | Option.none => dictLookup d k := by
  induction es generalizing d with
  | nil => simp [dictExtend, dictLookup]
  | cons e rest ih =>
    obtain ⟨ke, ve⟩ := e
    have h' := List.nodup_cons.mp (show (ke :: rest.map Prod.fst).Nodup from h)
    have hnd : NodupKeys rest := h'.2
    have hmem : ke ∉ dictKeys rest := h'.1
    have step : dictExtend d ((ke, ve) :: rest) = dictExtend (dictInsert d ke ve) rest := rfl
    rw [step, ih _ hnd]
    by_cases hk : k = ke
    · subst hk
      rw [dictLookup_eq_none_of_not_mem rest k hmem]
      simp [dictLookup, dictLookup_insert]
    · have hke : ¬ ke = k := fun hx => hk hx.symm
      cases hr : dictLookup rest k with
      | none => simp [dictLookup, hke, hr, dictLookup_insert, hk]
      | some w => simp [dictLookup, hke, hr]

/-- Source `merge_messages` is plain list concatenation. -/
theorem merge_messages_eq_append (l r : List α) : merge_messages l r = l ++ r := by
  cases l <;> cases r <;> simp [merge_messages]

theorem dictLookup_extend_of_not_contains (es : PyDict α) (d : PyDict α) (k : String)
    (h : containsKey es k = false) :
    dictLookup (dictExtend d es) k = dictLookup d k := by
  induction es generalizing d with
  | nil => rfl
  | cons e rest ih =>
    obtain ⟨ke, ve⟩ := e
    have hke : ¬ ke = k := by
      intro hx
      simp [containsKey, dictLookup, hx] at h
    have hrest : containsKey rest k = false := by
      simpa [containsKey, dictLookup, hke] using h
    have step : dictExtend d ((ke, ve) :: rest) = dictExtend (dictInsert d ke ve) rest := rfl
    have hk' : ¬ k = ke := fun hx => hke hx.symm
    rw [step, ih _ hrest, dictLookup_insert, if_neg hk']

theorem sum_updateValue {β : Type} [AddCommMonoid β] (g : NodeState → β) (t : β)
    (d : PyDict NodeState) (key : String) (f : NodeState → NodeState)
    (hf : ∀ n, g (f n) = g n + t) (hmem : containsKey d key = true) :
    ((updateValue d key f).map (fun p => g p.2)).sum =
      (d.map (fun p => g p.2)).sum + t := by
  induction d with
  | nil => simp [containsKey, dictLookup] at hmem
  | cons hd tl ih =>
    obtain ⟨k, v⟩ := hd
    by_cases hk : k = key
    · simp only [updateValue, if_pos hk, List.map_cons, List.sum_cons, hf v]
      rw [add_right_comm]
    · have hmem' : containsKey tl key = true := by
        simpa [containsKey, dictLookup, hk] using hmem
      simp only [updateValue, if_neg hk, List.map_cons, List.sum_cons]
      rw [ih hmem', add_assoc]

theorem containsKey_append_singleton (d : PyDict α) (k : String) (v : α) :
    containsKey (d ++ [(k, v)]) k = true := by
  simp only [containsKey, dictLookup_append]
  cases h : dictLookup d k with
  | none => simp [dictLookup]
  | some w => simp

theorem sum_map_append_singleton {β : Type} [AddCommMonoid β] (g : NodeState → β)
    (d : PyDict NodeState) (k : String) (v : NodeState) (hv : g v = 0) :
    (((d ++ [(k, v)]).map (fun p => g p.2)).sum) = (d.map (fun p => g p.2)).sum := by
  simp [hv]

theorem applyNodeUpdate_tokens (n : NodeState) (a : UpdateArgs) :
    (applyNodeUpdate n a).tokens_used = n.tokens_used + a.tokens := by
  cases ho : a.output <;> cases he : a.error <;>
    simp only [applyNodeUpdate, ho, he] <;> split_ifs <;> rfl

theorem applyNodeUpdate_cost (n : NodeState) (a : UpdateArgs) :
    (applyNodeUpdate n a).cost = n.cost + a.cost := by
  cases ho : a.output <;> cases he : a.error <;>
    simp only [applyNodeUpdate, ho, he] <;> split_ifs <;> rfl

theorem sumTokens_updateValue (d : PyDict NodeState) (a : UpdateArgs)
    (h : containsKey d a.node_name = true) :
    sumTokens (updateValue d a.node_name (fun n => applyNodeUpdate n a)) =
      sumTokens d + a.tokens :=
  sum_updateValue (fun n => n.tokens_used) a.tokens d a.node_name _
    (fun n => applyNodeUpdate_tokens n a) h

theorem sumCost_updateValue (d : PyDict NodeState) (a : UpdateArgs)
    (h : containsKey d a.node_name = true) :
    sumCost (updateValue d a.node_name (fun n => applyNodeUpdate n a)) =
      sumCost d + a.cost :=
  sum_updateValue (fun n => n.cost) a.cost d a.node_name _
    (fun n => applyNodeUpdate_cost n a) h

theorem sumTokens_append_fresh (d : PyDict NodeState) (k : String) (now : Nat) :
    sumTokens (d ++ [(k, NodeState.fresh k now)]) = sumTokens d := by
  simp [sumTokens, NodeState.fresh]

theorem sumCost_append_fresh (d : PyDict NodeState) (k : String) (now : Nat) :
    sumCost (d ++ [(k, NodeState.fresh k now)]) = sumCost d := by
  simp [sumCost, NodeState.fresh]

theorem update_node_state_totals (st : WorkflowState) (a : UpdateArgs)
    (ht : st.total_tokens = sumTokens st.node_states)
    (hc : st.total_cost = sumCost st.node_states) :
    (st.update_node_state a).total_tokens = sumTokens (st.update_node_state a).node_states ∧
    (st.update_node_state a).total_cost = sumCost (st.update_node_state a).node_states := by
  by_cases hmem : containsKey st.node_states a.node_name
  · have e1 : (st.update_node_state a).total_tokens = st.total_tokens + a.tokens := rfl
    have e2 : (st.update_node_state a).total_cost = st.total_cost + a.cost := rfl
    have e3 : (st.update_node_state a).node_states =
        updateValue st.node_states a.node_name (fun n => applyNodeUpdate n a) := by
      simp only [WorkflowState.update_node_state, hmem, if_true]
    rw [e1, e2, e3, sumTokens_updateValue _ _ hmem, sumCost_updateValue _ _ hmem, ht, hc]
    exact ⟨rfl, rfl⟩
  · have hmem0 : containsKey st.node_states a.node_name = false := by
      simpa using hmem
    have hmem' := containsKey_append_singleton st.node_states a.node_name
      (NodeState.fresh a.node_name a.now)
    have e1 : (st.update_node_state a).total_tokens = st.total_tokens + a.tokens := rfl
    have e2 : (st.update_node_state a).total_cost = st.total_cost + a.cost := rfl
    have e3 : (st.update_node_state a).node_states =
        updateValue (st.node_states ++ [(a.node_name, NodeState.fresh a.node_name a.now)])
          a.node_name (fun n => applyNodeUpdate n a) := by
      simp only [WorkflowState.update_node_state, hmem0]
      rfl
    have ha : UpdateArgs.node_name a = a.node_name := rfl
    rw [e1, e2, e3, sumTokens_updateValue _ _ hmem', sumCost_updateValue _ _ hmem',
      sumTokens_append_fresh, sumCost_append_fresh, ht, hc]
    exact ⟨rfl, rfl⟩

theorem applyUpdates_inv (calls : List UpdateArgs) :
    ∀ st : WorkflowState, st.total_tokens = sumTokens st.node_states →
      st.total_cost = sumCost st.node_states →
      (applyUpdates st calls).total_tokens = sumTokens (applyUpdates st calls).node_states ∧
      (applyUpdates st calls).total_cost = sumCost (applyUpdates st calls).node_states := by
  induction calls with
  | nil => intro st ht hc; exact ⟨ht, hc⟩
  | cons c rest ih =>
    intro st ht hc
    have step := update_node_state_totals st c ht hc
    exact ih _ step.1 step.2

/-! ## Claim theorems -/

/-- Claim C1: the query safety gate rejects
`SELECT * FROM budgets; DROP TABLE users;` and
`SELECT * FROM secrets LIMIT 10`, while
`SELECT model, SUM(total_cost) FROM cost_tracking_daily GROUP BY model LIMIT 50`
is accepted and passes through validation and sanitization unchanged. -/
theorem query_safety_gate_examples :
    (validate_sql_query "SELECT * FROM budgets; DROP TABLE users;").1 = false ∧
    (validate_sql_query "SELECT * FROM secrets LIMIT 10").1 = false ∧
    validate_sql_query
      "SELECT model, SUM(total_cost) FROM cost_tracking_daily GROUP BY model LIMIT 50" =
      (true, "") ∧
    sanitize_sql_query
      "SELECT model, SUM(total_cost) FROM cost_tracking_daily GROUP BY model LIMIT 50" =
      "SELECT model, SUM(total_cost) FROM cost_tracking_daily GROUP BY model LIMIT 50" :=
  ⟨by decide, by decide, by decide, by decide⟩

/-- Counterexample to claim C2 as stated: a `generate_code` execution whose
LLM call raises returns a partial state with no `iteration_count` key at
all — that execution does not increment the counter by 1 — and the coding
graph's only conditional edge, `_should_iterate`, still selects the looping
target afterwards when the carried `code_analysis` names an issue and the
counter is below 5, so failed executions are not counted toward the bound. -/
theorem generate_code_failure_skips_increment :
    containsKey (_generate_code (WorkflowState.init [] []) 0
      (LLMOutcome.exc "boom")).2 "iteration_count" = false ∧
    (_generate_code (WorkflowState.init [] []) 0 (LLMOutcome.exc "boom")).2 =
      [("error", PyVal.str "boom"), ("should_continue", PyVal.bool false)] ∧
    _should_iterate
      { WorkflowState.init [] [] with
          error := some "boom", should_continue := false,
          code_analysis := some "there is a bug here", iteration_count := 2 } =
      "iterate" :=
  ⟨by decide, rfl, by decide⟩

/-- Claim C2 (amended): with `MAX_ITERATIONS = 5`, every state whose
`iteration_count` is at least 5 is routed by `_should_iterate` (and by
`coding_router`) to `"finalize"` and by `check_iteration_limit` with
`max_iterations = 5` to `"end"`, never to the looping target; every
successful execution of the `generate_code` node returns `iteration_count`
incremented by exactly 1; and a failed execution returns only an error with
`should_continue = False` — it leaves `iteration_count` without an update,
so only successful executions are counted toward the iteration bound. -/
theorem iteration_limit_blocks_sixth_run :
    (∀ state : WorkflowState, state.iteration_count ≥ 5 →
        _should_iterate state = "finalize" ∧
        check_iteration_limit state 5 = "end" ∧
        coding_router state = "finalize") ∧
    (∀ (state : WorkflowState) (now : Nat) (content : String) (pt ct : Int),
        dictLookup (_generate_code state now (LLMOutcome.ok content pt ct)).2
          "iteration_count" = some (PyVal.int (state.iteration_count + 1))) ∧
    (∀ (state : WorkflowState) (now : Nat) (msg : String),
        (_generate_code state now (LLMOutcome.exc msg)).2 =
          [("error", PyVal.str msg), ("should_continue", PyVal.bool false)]) := by
  refine ⟨?_, ?_, fun _ _ _ => rfl⟩
  · intro s h
    refine ⟨?_, ?_, ?_⟩
    · simp [_should_iterate, MAX_ITERATIONS, h]
    · simp [check_iteration_limit, h]
    · simp [coding_router, h]
  · intro s now content pt ct
    rfl

/-- Witness for C2 at a concrete state with `iteration_count = 5`. -/
theorem iteration_limit_blocks_sixth_run_witness :
    _should_iterate { WorkflowState.init [] [] with iteration_count := 5 } = "finalize" ∧
    check_iteration_limit { WorkflowState.init [] [] with iteration_count := 5 } 5 = "end" ∧
    coding_router { WorkflowState.init [] [] with iteration_count := 5 } = "finalize" :=
  iteration_limit_blocks_sixth_run.1
    { WorkflowState.init [] [] with iteration_count := 5 } (by decide)

/-- Claim C3: the reducers implement their declared kinds: `merge_dicts` is
the shallow merge with the right dict overriding the left on common keys,
`last_value` returns the right value when non-null and the left otherwise,
and `merge_messages` concatenates left followed by right. -/
theorem reducers_implement_declared_kinds :
    (∀ (α : Type) (left right : PyDict α) (k : String),
        NodupKeys left → NodupKeys right →
        dictLookup (merge_dicts left right) k =
          (match dictLookup right k with
           | some v => some v
           | Option.none => dictLookup left k)) ∧
    (∀ (α : Type) (l r : Option α),
        (r ≠ Option.none → last_value l r = r) ∧
        (r = Option.none → last_value l r = l)) ∧
    (∀ (α : Type) (l r : List α), merge_messages l r = l ++ r) := by
  refine ⟨?_, ?_, ?_⟩
  · intro α left right k hl hr
    unfold merge_dicts
    cases left with
    | nil =>
      cases right with
      | nil => simp [dictLookup]
      | cons b bs =>
        simp only [List.isEmpty_nil, List.isEmpty_cons, if_true, Bool.false_eq_true, if_false]
        cases dictLookup (b :: bs) k <;> simp [dictLookup]
    | cons a as =>
      cases right with
      | nil => simp [dictLookup]
      | cons b bs =>
        simp only [List.isEmpty_cons, Bool.false_eq_true, if_false]
        rw [dictLookup_extend _ _ _ hr, dictLookup_extend _ _ _ hl]
        cases dictLookup (b :: bs) k <;> cases dictLookup (a :: as) k <;> simp [dictLookup]
  · intro α l r
    constructor
    · intro h
      cases r with
      | none => exact absurd rfl h
      | some v => rfl
    · intro h
      subst h
      rfl
  · intro α l r
    exact merge_messages_eq_append l r

/-- Witness for C3 at concrete dicts, values and lists. -/
theorem reducers_implement_declared_kinds_witness :
    dictLookup (merge_dicts [("a", (1 : Int)), ("b", 2)] [("b", 9), ("c", 3)]) "b" =
      some 9 ∧
    last_value (some (1 : Int)) (some 2) = some 2 ∧
    merge_messages [(1 : Int), 2] [3] = [1, 2, 3] := by
  refine ⟨?_, ?_, ?_⟩
  · rw [reducers_implement_declared_kinds.1 Int [("a", (1 : Int)), ("b", 2)]
      [("b", 9), ("c", 3)] "b" (by simp [NodupKeys, dictKeys]) (by simp [NodupKeys, dictKeys])]
    decide
  · exact (reducers_implement_declared_kinds.2.1 Int (some 1) (some 2)).1 (by decide)
  · rw [reducers_implement_declared_kinds.2.2 Int [(1 : Int), 2] [3]]
    rfl

/-- Claim C7: for the `append` reducer, folding two same-superstep deltas in
either order yields a result with the same length and the same multiset of
elements. -/
theorem append_reducer_superstep_commutes (α : Type) (base d1 d2 : List α) :
    (merge_messages (merge_messages base d1) d2).length =
      (merge_messages (merge_messages base d2) d1).length ∧
    (↑(merge_messages (merge_messages base d1) d2) : Multiset α) =
      ↑(merge_messages (merge_messages base d2) d1) := by
  rw [merge_messages_eq_append, merge_messages_eq_append,
      merge_messages_eq_append, merge_messages_eq_append]
  have hp : (base ++ d1 ++ d2).Perm (base ++ d2 ++ d1) := by
    rw [List.append_assoc, List.append_assoc]
    exact List.Perm.append_left base List.perm_append_comm
  exact ⟨hp.length_eq, Multiset.coe_eq_coe.mpr hp⟩

/-- Claim C9: `router_node` is total and returns the first target (in dict
iteration order) whose condition evaluates to true, treating a raised
condition as a non-match, and the default when no condition matches. -/
theorem router_node_first_true_or_default (state : WorkflowState)
    (conditions : List (String × (WorkflowState → Except String Bool)))
    (default : String) :
    router_node state conditions default =
      (match conditions.find? (fun p =>
          match p.2 state with
          | Except.ok true => true
          | _ => false) with
       | some p => p.1
       | Option.none => default) := by
  induction conditions with
  | nil => rfl
  | cons hd rest ih =>
    obtain ⟨target, cond⟩ := hd
    unfold router_node
    cases h : cond state with
    | ok b =>
      cases b
      · rw [ih]
        simp [List.find?, h]
      · simp [List.find?, h]
    | error e =>
      rw [ih]
      simp [List.find?, h]

/-- Claim C4: for every state whose generated SQL query fails the safety
gate, the `query_data` node returns a partial state containing an error and
`should_continue = False`, and the Tool Client is never invoked. -/
theorem rejected_query_never_reaches_tool (state : WorkflowState)
    (mcp : String → MCPOutcome) (now : Nat)
    (h : (validate_sql_query ((state.data_query).getD "")).1 = false) :
    (∃ e, dictLookup (_query_data state mcp now).2.1 "error" = some (PyVal.str e)) ∧
    dictLookup (_query_data state mcp now).2.1 "should_continue" =
      some (PyVal.bool false) ∧
    (_query_data state mcp now).2.2 = [] := by
  unfold _query_data
  by_cases hq : (state.data_query).getD "" = ""
  · simp [hq, dictLookup]
  · simp only [if_neg hq, h, Bool.not_false, if_true]
    refine ⟨⟨_, rfl⟩, ?_, ?_⟩ <;> simp [dictLookup]

/-- Witness for C4 at a concrete state whose query is `DROP TABLE x`. -/
theorem rejected_query_never_reaches_tool_witness :
    (_query_data { WorkflowState.init [] [] with data_query := some "DROP TABLE x" }
        (fun _ => MCPOutcome.exc "unreachable") 0).2.2 = [] ∧
    dictLookup (_query_data
        { WorkflowState.init [] [] with data_query := some "DROP TABLE x" }
        (fun _ => MCPOutcome.exc "unreachable") 0).2.1 "should_continue" =
      some (PyVal.bool false) := by
  have h := rejected_query_never_reaches_tool
    { WorkflowState.init [] [] with data_query := some "DROP TABLE x" }
    (fun _ => MCPOutcome.exc "unreachable") 0 (by decide)
  exact ⟨h.2.2, h.2.1⟩

/-- Counterexample to claim C5 as stated: a state whose error is the
non-null empty string is routed to `"continue"`, not `"end"`, because
`should_continue` tests Python truthiness of the error. -/
theorem error_state_not_always_routed_to_end :
    { WorkflowState.init [] [] with error := some "" }.error ≠ Option.none ∧
    should_continue { WorkflowState.init [] [] with error := some "" } = "continue" :=
  ⟨by decide, rfl⟩

/-- Claim C5 (amended): whenever a node's external call fails (raise or
non-200 status), `llm_node` and `tool_node` return a partial state with the
error set and `should_continue = False`; the `should_continue` edge maps
every state with a truthy (non-empty) error to `"end"` and every state with
`should_continue = False` to `"end"` — so a failed node still ends the
execution even when its error message is the empty string. -/
theorem failed_node_ends_execution :
    (∀ (state : WorkflowState) (node_name : String) (now : Nat) (msg : String),
        (llm_node state (HttpOutcome.exc msg) node_name now).2 =
          [("error", PyVal.str msg), ("should_continue", PyVal.bool false)]) ∧
    (∀ (state : WorkflowState) (status : Int) (text content : String) (pt ct : Int)
        (node_name : String) (now : Nat), status ≠ 200 →
        (llm_node state (HttpOutcome.resp status text content pt ct) node_name now).2 =
          [("error", PyVal.str ("LLM call failed: " ++ text)),
           ("should_continue", PyVal.bool false)]) ∧
    (∀ (state : WorkflowState) (msg tool_name node_name : String) (now : Nat),
        (tool_node state (ToolOutcome.exc msg) tool_name node_name now).2 =
          [("error", PyVal.str msg), ("should_continue", PyVal.bool false)]) ∧
    (∀ (state : WorkflowState) (status : Int) (text : String) (result : PyVal)
        (tool_name node_name : String) (now : Nat), status ≠ 200 →
        (tool_node state (ToolOutcome.resp status text result) tool_name node_name now).2 =
          [("error", PyVal.str ("Tool call failed: " ++ text)),
           ("should_continue", PyVal.bool false)]) ∧
    (∀ state : WorkflowState, truthyStrOpt state.error = true →
        should_continue state = "end") ∧
    (∀ state : WorkflowState, state.should_continue = false →
        should_continue state = "end") := by
  refine ⟨fun _ _ _ _ => rfl, ?_, fun _ _ _ _ _ => rfl, ?_, ?_, ?_⟩
  · intro state status text content pt ct node_name now h
    simp [llm_node, h]
  · intro state status text result tool_name node_name now h
    simp [tool_node, h]
  · intro state h
    simp [should_continue, h]
  · intro state h
    unfold should_continue
    rw [h]
    simp

/-- Witness for C5 (amended) at concrete failing calls and states. -/
theorem failed_node_ends_execution_witness :
    (llm_node (WorkflowState.init [] []) (HttpOutcome.resp 500 "oops" "" 0 0) "llm" 0).2 =
      [("error", PyVal.str "LLM call failed: oops"),
       ("should_continue", PyVal.bool false)] ∧
    should_continue { WorkflowState.init [] [] with error := some "boom" } = "end" ∧
    should_continue { WorkflowState.init [] [] with should_continue := false } = "end" := by
  refine ⟨?_, ?_, ?_⟩
  · exact failed_node_ends_execution.2.1 (WorkflowState.init [] []) 500 "oops" "" 0 0
      "llm" 0 (by decide)
  · exact failed_node_ends_execution.2.2.2.2.1
      { WorkflowState.init [] [] with error := some "boom" } (by decide)
  · exact failed_node_ends_execution.2.2.2.2.2
      { WorkflowState.init [] [] with should_continue := false } rfl

/-- Claim C6: `resume` on a thread whose head checkpoint exists (a snapshot
with non-empty values) continues execution from that checkpoint; on a
thread with no checkpoint (no snapshot, or the empty snapshot the
checkpointing library returns for an unknown thread) it fails with an
error instead of starting a fresh run. -/
theorem resume_requires_checkpoint (thread_id : String)
    (aget_state : String → Option StateSnapshot)
    (ainvoke_from_checkpoint : String → WorkflowState) :
    (∀ s, aget_state thread_id = some s → s.values.isEmpty = false →
        BaseWorkflow.resume thread_id aget_state ainvoke_from_checkpoint =
          Except.ok (ainvoke_from_checkpoint thread_id)) ∧
    ((aget_state thread_id = Option.none ∨
        (∃ s, aget_state thread_id = some s ∧ s.values = [])) →
        BaseWorkflow.resume thread_id aget_state ainvoke_from_checkpoint =
          Except.error ("No checkpoint found for thread " ++ thread_id)) := by
  constructor
  · intro s hs hne
    unfold BaseWorkflow.resume
    rw [hs]
    simp [hne]
  · intro h
    unfold BaseWorkflow.resume
    rcases h with h | ⟨s, hs, hv⟩
    · rw [h]
    · rw [hs]
      simp [hv]

/-- Witness for C6: a thread with one checkpoint resumes, a thread with
none errors. -/
theorem resume_requires_checkpoint_witness :
    BaseWorkflow.resume "t1" (fun _ => some ⟨[("x", PyVal.int 1)]⟩)
      (fun _ => WorkflowState.init [] []) =
      Except.ok (WorkflowState.init [] []) ∧
    BaseWorkflow.resume "t2" (fun _ => Option.none)
      (fun _ => WorkflowState.init [] []) =
      Except.error "No checkpoint found for thread t2" := by
  constructor
  · exact (resume_requires_checkpoint "t1" (fun _ => some ⟨[("x", PyVal.int 1)]⟩)
      (fun _ => WorkflowState.init [] [])).1 ⟨[("x", PyVal.int 1)]⟩ rfl rfl
  · exact (resume_requires_checkpoint "t2" (fun _ => Option.none)
      (fun _ => WorkflowState.init [] [])).2 (Or.inl rfl)

/-- Counterexample to claim C8 as stated: the endpoint answers the client
input `"hello"` with a JSON object whose `type` is `"echo"`, which is not
one of the seven claimed message types. -/
theorem ws_echo_type_outside_claimed_set :
    handle_client_message "hello" =
      WsMessage.json [("type", PyVal.str "echo"), ("data", PyVal.str "hello")] ∧
    wsAllowedTypes.contains "echo" = false :=
  ⟨rfl, by decide⟩

/-- Claim C8 (amended): every server-to-client JSON message has a `type` in
the claimed set extended with `"echo"`: the connect acknowledgment, the
keepalive, and every broadcast update (whose `type` is the caller-supplied
`update_type`, which is `"status"` or `"error"` at every call site) carry a
claimed type; a client input other than `"ping"` is answered with a JSON
message of type `"echo"`; `"ping"` is answered with the plain-text frame
`"pong"`, not a JSON object. -/
theorem ws_message_types_classified :
    (∀ data : String, data ≠ "ping" →
        wsMessageType (handle_client_message data) = some (PyVal.str "echo")) ∧
    handle_client_message "ping" = WsMessage.text "pong" ∧
    (∀ execution_id : String,
        wsMessageType (connected_message execution_id) = some (PyVal.str "connected")) ∧
    wsMessageType keepalive_message = some (PyVal.str "keepalive") ∧
    (∀ (execution_id update_type : String) (data : PyDict PyVal),
        containsKey data "type" = false →
        wsMessageType (send_execution_update execution_id update_type data) =
          some (PyVal.str update_type)) ∧
    send_update_call_types.all (fun t => wsAllowedTypes.contains t) = true ∧
    (["connected", "keepalive"] : List String).all
      (fun t => wsAllowedTypes.contains t) = true := by
  refine ⟨?_, rfl, fun _ => rfl, rfl, ?_, by decide, by decide⟩
  · intro data h
    simp [handle_client_message, h, wsMessageType, dictLookup]
  · intro execution_id update_type data h
    show dictLookup (dictExtend (dictExtend []
        [("type", PyVal.str update_type), ("execution_id", PyVal.str execution_id)])
        data) "type" = some (PyVal.str update_type)
    rw [dictLookup_extend_of_not_contains _ _ _ h]
    rfl

/-- Witness for C8 (amended) at a concrete client input and broadcast. -/
theorem ws_message_types_classified_witness :
    wsMessageType (handle_client_message "hello") = some (PyVal.str "echo") ∧
    wsMessageType (send_execution_update "e1" "status"
      [("status", PyVal.str "running")]) = some (PyVal.str "status") := by
  constructor
  · exact ws_message_types_classified.1 "hello" (by decide)
  · exact ws_message_types_classified.2.2.2.2.1 "e1" "status"
      [("status", PyVal.str "running")] (by decide)

/-- Counterexample to claim C10 as stated: under the IEEE binary64
arithmetic the interpreter actually uses for the `float` cost fields, the
concrete call sequence `interleavedCostCalls` (costs `1.0` to node `"a"`,
`1.0` to node `"b"`, `1e16` to node `"a"`) leaves the running
`total_cost` at `1e16 + 2` while the per-node `cost` fields sum to
`1e16 + 1`: the running total and the per-node sums associate the same
additions differently, and double addition is not associative. -/
theorem float_totals_break_per_node_sums :
    (applyUpdatesF (WorkflowState.init [] []) interleavedCostCalls).total_cost =
      10000000000000002 ∧
    sumCost (applyUpdatesF (WorkflowState.init [] [])
      interleavedCostCalls).node_states = 10000000000000001 ∧
    (applyUpdatesF (WorkflowState.init [] []) interleavedCostCalls).total_cost ≠
      sumCost (applyUpdatesF (WorkflowState.init [] [])
        interleavedCostCalls).node_states := by
  have htotal : (applyUpdatesF (WorkflowState.init [] [])
      interleavedCostCalls).total_cost = (10000000000000002 : ℚ) := by decide
  have hcosts : ((applyUpdatesF (WorkflowState.init [] [])
      interleavedCostCalls).node_states).map (fun p => p.2.cost) =
      [(10000000000000000 : ℚ), 1] := by decide
  have hsum : sumCost (applyUpdatesF (WorkflowState.init [] [])
      interleavedCostCalls).node_states = (10000000000000001 : ℚ) := by
    unfold sumCost
    rw [hcosts]
    norm_num
  refine ⟨htotal, hsum, ?_⟩
  rw [htotal, hsum]
  decide

/-- Claim C10 (amended): starting from a freshly constructed
`WorkflowState`, after any sequence of `update_node_state` calls
`total_tokens` equals the sum of `tokens_used` over all `node_states`
entries exactly (integer arithmetic), and `total_cost` equals the sum of
the per-node `cost` fields when the float additions are interpreted as
exact (rational) arithmetic; under IEEE binary64 the cost equality can
fail on call sequences that interleave nodes, because the running total
and the per-node records group the same additions differently. -/
theorem totals_equal_per_node_sums (input : Msg) (messages : List Msg)
    (calls : List UpdateArgs) :
    (applyUpdates (WorkflowState.init input messages) calls).total_tokens =
      sumTokens (applyUpdates (WorkflowState.init input messages) calls).node_states ∧
    (applyUpdates (WorkflowState.init input messages) calls).total_cost =
      sumCost (applyUpdates (WorkflowState.init input messages) calls).node_states :=
  applyUpdates_inv calls (WorkflowState.init input messages) rfl rfl

end AiGateway
